import Mathlib

/-!
Shallow embedding of the message-board broker (`mcp_server_simple.py`) and
proofs checking the specification's claims against it.

Modelling conventions:
* SQLite tables are Lean lists of rows, in rowid (insertion) order.
* SQL `TEXT` is `String` (message bodies are `List Char` so that the
  session-tag codec, substring filters and `length(content)` are easy to
  reason about; SQLite `length` on TEXT counts characters, as does
  `List.length` on `List Char`).
* SQL `INTEGER` timestamps are `Int` (SQLite integers are signed).
* SQL `NULL`-able columns are `Option` fields.
* Python truthiness tests (`if x:`) on optional strings and integers are
  embedded explicitly: `None`, `""` and `0` are falsy.
* `uuid.uuid4()` and `int(time.time())` results are passed in as explicit
  arguments (`genId`, `now`, ...): the embedding is deterministic.
-/

namespace MessageBoard

/-- Truthiness of an optional string argument, as Python `if x:` sees it:
`None` and the empty string are falsy. -/
def strTruthy : Option String → Bool
  | none => false
  | some s => !(s == "")

/-- Truthiness of an optional integer argument, as Python `if x:` sees it:
`None` and `0` are falsy. -/
def intTruthy : Option Int → Bool
  | none => false
  | some v => !(v == 0)

/-- Lower-case an ASCII letter, leaving every other character unchanged.
SQLite's `LIKE` operator compares ASCII letters case-insensitively, so the
embedding of the session `LIKE` filter folds case with this map. -/
def lowerAscii (c : Char) : Char :=
  if 'A' ≤ c && c ≤ 'Z' then Char.ofNat (c.toNat + 32) else c

/-- Fuelled SQLite `LIKE` matcher on characters: `%` matches any run, `_`
matches any single character, everything else compares ASCII-case-folded (the
program never uses an `ESCAPE` clause).  Every step shortens the pattern or
the string, so fuel `pattern.length + string.length + 1` always suffices; the
fuel only makes the recursion structural. -/
def likeMatchFuel : Nat → List Char → List Char → Bool
  | 0, _, _ => false
  | _ + 1, [], s => s.isEmpty
  | fuel + 1, '%' :: ps, s =>
    likeMatchFuel fuel ps s ||
      (match s with
       | [] => false
       | _ :: ss => likeMatchFuel fuel ('%' :: ps) ss)
  | fuel + 1, '_' :: ps, s =>
    (match s with
     | [] => false
     | _ :: ss => likeMatchFuel fuel ps ss)
  | fuel + 1, p :: ps, s =>
    (match s with
     | [] => false
     | c :: ss => lowerAscii p == lowerAscii c && likeMatchFuel fuel ps ss)

/-- SQLite `string LIKE pattern` with sufficient fuel. -/
def likeMatch (pattern : List Char) (s : List Char) : Bool :=
  likeMatchFuel (pattern.length + s.length + 1) pattern s

/-- Embedding of the SQL filter `content LIKE '%[session:' || sid || ']%'`
used by `read_messages` and `wait_for_message`.  The pattern is the f-string
`f"%[session:{session_id}]%"`, so a `%` or `_` inside the caller-supplied tag
keeps its `LIKE` wildcard meaning, and letters compare ASCII-case-folded. -/
def likeContainsTag (content : List Char) (sid : String) : Bool :=
  likeMatch ("%[session:".data ++ sid.data ++ "]%".data) content

/-- The code points CPython's `str.isspace()` accepts — exactly what
`str.strip()` with no argument removes: the ASCII whitespace and separator
controls 0x09-0x0D, 0x1C-0x1F and 0x20, then NEL 0x85, NBSP 0xA0, OGHAM SPACE
0x1680, the typographic spaces 0x2000-0x200A, the line and paragraph
separators 0x2028 and 0x2029, NARROW NBSP 0x202F, MMSP 0x205F, and the
ideographic space 0x3000. -/
def isPySpace (c : Char) : Bool :=
  ([0x09, 0x0A, 0x0B, 0x0C, 0x0D, 0x1C, 0x1D, 0x1E, 0x1F, 0x20,
    0x85, 0xA0, 0x1680, 0x2000, 0x2001, 0x2002, 0x2003, 0x2004, 0x2005,
    0x2006, 0x2007, 0x2008, 0x2009, 0x200A, 0x2028, 0x2029, 0x202F, 0x205F,
    0x3000] : List Nat).contains c.toNat

/-- Embedding of Python `str.strip()`: drop leading and trailing whitespace
(every code point `str.isspace()` accepts). -/
def pyStrip (l : List Char) : List Char :=
  ((l.dropWhile isPySpace).reverse.dropWhile isPySpace).reverse

/-- A row of the `messages` table. -/
structure Msg where
  id : String
  sender : String
  content : List Char
  timestamp : Int
  read : Bool
  reply_to : Option String
  priority : String
deriving DecidableEq, Repr

/-- A row of the `tasks` table (with the columns the migrated schema carries:
`progress`, `started_at`, `completed_at`, `error_message`). -/
structure Task where
  id : String
  title : String
  description : String
  status : String
  assigned_to : String
  created_by : String
  priority : String
  progress : Int
  created_at : Int
  updated_at : Int
  started_at : Option Int
  completed_at : Option Int
  error_message : Option String
  result : Option String
deriving DecidableEq, Repr

/-- A row of the `waiting_agents` table (primary key `id`, unique `agent_id`). -/
structure WaitingAgent where
  id : String
  agent_id : String
  agent_type : String
  waiting_since : Int
  capabilities : Option String
  status : String
  current_task_id : Option String
  heartbeat : Option Int
  is_online : Bool
  last_disconnect : Option Int
deriving DecidableEq, Repr

/-- The whole store: the three tables the claims are about. -/
structure Board where
  messages : List Msg
  tasks : List Task
  waiting_agents : List WaitingAgent
deriving DecidableEq, Repr

/-! ## Session tag codec (`send_message` encode side, `read_messages` /
`wait_for_message` decode side) -/

/-- The literal marker the codec looks for, `"[session:"`. -/
def sessionMarker : List Char := "[session:".data

/-- Encode side, from `send_message`: the inserted content is the f-string
`"[session:" + sid + "] " + content`. -/
def encodeSessionContent (sid : String) (content : List Char) : List Char :=
  ("[session:" ++ sid ++ "] ").data ++ content

/-- Index of the first `']'` in a character list, embedding Python's
`content.index("]")` (which raises `ValueError`, here `none`, when absent). -/
def idxOfBracketClose : List Char → Option Nat
  | [] => none
  | c :: cs =>
    if c = ']' then some 0 else (idxOfBracketClose cs).map (· + 1)

/-- Decode side, from `read_messages` (the identical code is inlined in
`wait_for_message`): when the content starts with `"[session:"`, the tag is
the slice between position 9 and the first `']'`, and the returned content is
everything after that bracket and the following blank, `strip()`-ped.  When no
`']'` exists the `ValueError` is swallowed and the row is returned verbatim. -/
def decodeSessionContent (content : List Char) : Option (List Char) × List Char :=
  if sessionMarker.isPrefixOf content then
    match idxOfBracketClose content with
    | some j => (some ((content.take j).drop 9), pyStrip (content.drop (j + 2)))
    | none => (none, content)
  else (none, content)

/-! ## send_message -/

/-- Return payload of `send_message`. -/
structure SendResult where
  success : Bool
  message_id : String
  timestamp : Int
  session_id : String
deriving DecidableEq, Repr

/-- Session id actually used by `send_message`: when the argument is falsy
(absent or empty) a fresh one (`genSession`, modelling `uuid.uuid4()`) is
substituted. -/
def effectiveSessionId (sessionId : Option String) (genSession : String) : String :=
  match sessionId with
  | some s => if s = "" then genSession else s
  | none => genSession

/-- Embedding of `send_message`: unconditionally inserts one row whose content
carries the encoded session tag; `genId` and `now` stand for `uuid.uuid4()`
and `int(time.time())`.  The source performs no validation of `content` or
`priority`. -/
def send_message (b : Board) (genId : String) (now : Int) (genSession : String)
    (content : String) (sender : String) (priority : String)
    (replyTo : Option String) (sessionId : Option String) : Board × SendResult :=
  let sid := effectiveSessionId sessionId genSession
  let row : Msg :=
    { id := genId, sender := sender,
      content := encodeSessionContent sid content.data,
      timestamp := now, read := false, reply_to := replyTo, priority := priority }
  ({ b with messages := b.messages ++ [row] },
   { success := true, message_id := genId, timestamp := now, session_id := sid })

/-! ## cleanup_messages and read_messages -/

/-- Lexicographic comparison of character lists, embedding SQLite's BINARY
collation on `TEXT` (bytewise memcmp; on code points this is the same order
for the ASCII ids the system generates). -/
def charListLe : List Char → List Char → Bool
  | [], _ => true
  | _ :: _, [] => false
  | c :: cs, d :: ds =>
    if c < d then true else if d < c then false else charListLe cs ds

/-- SQLite's `TEXT` ordering on strings. -/
def sqlTextLe (x y : String) : Bool := charListLe x.data y.data

/-- SQL `MAX` over a list of `TEXT` values (BINARY collation), `none` on the
empty group. -/
def sqlMaxText : List String → Option String
  | [] => none
  | x :: xs =>
    match sqlMaxText xs with
    | none => some x
    | some y => some (if sqlTextLe x y then y else x)

/-- Embedding of `SELECT MAX(id) FROM messages GROUP BY content, sender` for
the group of the pair `(c, s)`. -/
def pairMaxId (l : List Msg) (c : List Char) (s : String) : Option String :=
  sqlMaxText ((l.filter (fun m => m.content == c && m.sender == s)).map Msg.id)

/-- Embedding of the duplicate-pruning delete of `cleanup_messages`:
`DELETE FROM messages WHERE id NOT IN (SELECT MAX(id) ... GROUP BY content,
sender)` — a row survives exactly when its `id` is the `MAX(id)` of some
`(content, sender)` group. -/
def dupSurvivors (l : List Msg) : List Msg :=
  l.filter (fun m => l.any (fun w => pairMaxId l w.content w.sender == some m.id))

/-- Embedding of `cleanup_messages`: three deletes in order — contents shorter
than 20 characters, duplicate `(content, sender)` pairs keeping `MAX(id)`, and
rows older than one hour.  Returns the per-pass deletion counts. -/
def cleanup_messages (b : Board) (now : Int) : Board × Nat × Nat × Nat :=
  let afterShort := b.messages.filter (fun m => !(decide (m.content.length < 20)))
  let shortCount := b.messages.length - afterShort.length
  let afterDup := dupSurvivors afterShort
  let dupCount := afterShort.length - afterDup.length
  let cutoff := now - 3600
  let afterOld := afterDup.filter (fun m => !(decide (m.timestamp < cutoff)))
  let oldCount := afterDup.length - afterOld.length
  ({ b with messages := afterOld }, shortCount, dupCount, oldCount)

/-- A decoded message row as `read_messages` and `wait_for_message` return it. -/
structure MsgOut where
  id : String
  sender : String
  content : List Char
  timestamp : Int
  read : Bool
  priority : String
  session_id : Option (List Char)
deriving DecidableEq, Repr

/-- Decode one stored row into the returned shape (`row["priority"] or
"normal"` maps a falsy priority to `"normal"`). -/
def decodeMsg (m : Msg) : MsgOut :=
  let d := decodeSessionContent m.content
  { id := m.id, sender := m.sender, content := d.2, timestamp := m.timestamp,
    read := m.read,
    priority := if m.priority = "" then "normal" else m.priority,
    session_id := d.1 }

/-- Embedding of `read_messages`: cleanup runs first, then the filtered rows
are returned newest-first, decoded.  Falsy filter arguments are ignored, as in
the Python `if sender:` / `if session_id:` tests. -/
def read_messages (b : Board) (now : Int) (unreadOnly : Bool) (limit : Nat)
    (sender : Option String) (sessionId : Option String) : Board × List MsgOut :=
  let b1 := (cleanup_messages b now).1
  let rows := b1.messages.filter (fun m =>
    (if unreadOnly then !m.read else true)
    && (match sender with
        | some s => if s = "" then true else m.sender == s
        | none => true)
    && (match sessionId with
        | some sid => if sid = "" then true else likeContainsTag m.content sid
        | none => true))
  let sorted := rows.mergeSort (fun x y => decide (y.timestamp ≤ x.timestamp))
  (b1, (sorted.take limit).map decodeMsg)

/-! ## wait_for_message

The blocking loop is embedded over an explicit list of poll observations: each
entry is the `messages` table as the loop's `SELECT` sees it on that
iteration (`some msgs`), or `none` when that iteration's store access raises.
The list being exhausted models the `timeout` deadline expiring.  Since other
processes may write to the store while the call sleeps, consecutive snapshots
are unconstrained, and the registry seen at exit (`exitAgents`) is likewise a
parameter.  Real time (`wait_time`, the adaptive 0.5 s / 5 s sleep cadence) is
not modelled. -/

/-- Outcome of the wait loop: a delivered row, the timeout sentinel, or an
exception propagating out of the polling loop. -/
inductive WaitOutcome where
  | hit (row : Msg)
  | timedOut
  | raised
deriving DecidableEq, Repr

/-- The `WHERE` clause of the wait loop's candidate query.  Falsy `client_id`,
`session_id` and `last_seen` arguments contribute no filter (Python
truthiness); `checkedIds` is the per-call already-inspected set (which in the
source can never be non-empty at query time, because the row found is returned
immediately after being added). -/
def waitCandidate (clientId sessionId : Option String) (lastSeen : Option Int)
    (checkedIds : List String) (m : Msg) : Bool :=
  !m.read
  && (match clientId with
      | some c => if c = "" then true else !(m.sender == c)
      | none => true)
  && (match sessionId with
      | some sid => if sid = "" then true else likeContainsTag m.content sid
      | none => true)
  && (match lastSeen with
      | some v => if v = 0 then true else decide (v < m.timestamp)
      | none => true)
  && !(checkedIds.contains m.id)

/-- Embedding of `ORDER BY timestamp ASC LIMIT 1`: the first row (in table
order) carrying the minimal timestamp. -/
def minTimestampRow : List Msg → Option Msg
  | [] => none
  | m :: rest =>
    match minTimestampRow rest with
    | none => some m
    | some w => if w.timestamp < m.timestamp then some w else some m

/-- One iteration of the wait loop's candidate query. -/
def pollOnce (clientId sessionId : Option String) (lastSeen : Option Int)
    (checkedIds : List String) (msgs : List Msg) : Option Msg :=
  minTimestampRow (msgs.filter (waitCandidate clientId sessionId lastSeen checkedIds))

/-- The polling loop: returns the first hit, `raised` when an iteration's
store access raises, and the timeout sentinel when the deadline expires with
no candidate found. -/
def pollLoop (clientId sessionId : Option String) (lastSeen : Option Int)
    (checkedIds : List String) : List (Option (List Msg)) → WaitOutcome
  | [] => .timedOut
  | none :: _ => .raised
  | some msgs :: rest =>
    match pollOnce clientId sessionId lastSeen checkedIds msgs with
    | some m => .hit m
    | none => pollLoop clientId sessionId lastSeen checkedIds rest

/-- Embedding of the `re.match(r'^([a-z-]+)', client_id)` agent-type
derivation: the leading run of lower-case letters and hyphens, or
`"generic"` when there is none. -/
def deriveAgentType (clientId : String) : String :=
  let run := clientId.data.takeWhile (fun c => ('a' ≤ c && c ≤ 'z') || c == '-')
  if run.isEmpty then "generic" else String.mk run

/-- Entry-side registration of `wait_for_message`: `INSERT OR REPLACE` into
`waiting_agents` (replacing any row conflicting on the primary key `id` or on
the unique `agent_id`), plus the optional task-progress update when both
`task_id` and `progress` were supplied. -/
def waitRegister (b : Board) (now : Int) (clientId : String)
    (agentType capabilities : Option String) (status : String)
    (taskId : Option String) (progress : Option Int) : Board :=
  let atype :=
    match agentType with
    | some a => if a = "" then deriveAgentType clientId else a
    | none => deriveAgentType clientId
  let waitingId := "wait_" ++ clientId ++ "_" ++ toString now
  let kept := b.waiting_agents.filter
    (fun w => !(w.id == waitingId || w.agent_id == clientId))
  let row : WaitingAgent :=
    { id := waitingId, agent_id := clientId, agent_type := atype,
      waiting_since := now, capabilities := capabilities, status := status,
      current_task_id := taskId, heartbeat := some now, is_online := true,
      last_disconnect := none }
  let tasks :=
    match taskId, progress with
    | some tid, some p =>
      if tid = "" then b.tasks
      else b.tasks.map (fun t =>
        if t.id = tid then { t with progress := p, updated_at := now } else t)
    | _, _ => b.tasks
  { b with waiting_agents := kept ++ [row], tasks := tasks }

/-- Embedding of `unregister_waiting`: `DELETE FROM waiting_agents WHERE
agent_id = ?`; the second component is the `removed` flag (`rowcount > 0`). -/
def unregister_waiting (agents : List WaitingAgent) (agentId : String) :
    List WaitingAgent × Bool :=
  (agents.filter (fun w => !(w.agent_id == agentId)),
   agents.any (fun w => w.agent_id == agentId))

/-- Embedding of `wait_for_message`.  Returns the loop outcome, the store
after the entry-side registration, and the waiting registry after the
`finally` block ran against the registry as it stood at exit (`exitAgents`).
A falsy `client_id` skips registration, the sender filter and the `finally`
unregistration alike.  `timeout` only bounds the number of iterations, which
the length of `polls` already fixes. -/
def wait_for_message (entry : Board) (polls : List (Option (List Msg)))
    (exitAgents : List WaitingAgent) (now : Int) (timeout : Int)
    (lastSeen : Option Int) (clientId sessionId agentType capabilities : Option String)
    (status : String) (taskId : Option String) (progress : Option Int) :
    WaitOutcome × Board × List WaitingAgent :=
  let _ := timeout
  let registered :=
    match clientId with
    | some c =>
      if c = "" then entry
      else waitRegister entry now c agentType capabilities status taskId progress
    | none => entry
  let outcome := pollLoop clientId sessionId lastSeen [] polls
  let finalAgents :=
    match clientId with
    | some c => if c = "" then exitAgents else (unregister_waiting exitAgents c).1
    | none => exitAgents
  (outcome, registered, finalAgents)

/-! ## mark_read and its dispatcher wrapping -/

/-- The SQL text `mark_read` builds:
`"UPDATE messages SET read = 1 WHERE id IN (" + ",".join("?" per id) + ")"`. -/
def markReadQueryText (messageIds : List String) : String :=
  "UPDATE messages SET read = 1 WHERE id IN ("
    ++ String.intercalate "," (messageIds.map (fun _ => "?")) ++ ")"

/-- Embedding of `mark_read`: flip `read = 1` on every row whose id is in the
list and return the number of rows matched.  For the empty id list the built
statement ends in the empty clause `IN ()`, which SQLite accepts (an empty
`IN` list is a documented SQLite extension evaluating to false for every
row), so the call succeeds, matches nothing, and returns count 0. -/
def mark_read (b : Board) (messageIds : List String) : Board × Nat :=
  ({ b with messages := b.messages.map (fun m =>
      if messageIds.contains m.id then { m with read := true } else m) },
   (b.messages.filter (fun m => messageIds.contains m.id)).length)

/-- Outcome of a `tools/call` dispatch: a success payload (abstracted to the
updated-row count) or a JSON-RPC error object (the dispatcher maps any
handler exception to code `-32603`). -/
inductive RpcResult where
  | toolOk (count : Nat)
  | toolErr (code : Int)
deriving DecidableEq, Repr

/-- The dispatcher's `call_tool` around `mark_read`: the handler does not
raise (store errors are not modelled), so the result is always the success
payload with the updated-row count. -/
def call_tool_mark_read (b : Board) (messageIds : List String) :
    RpcResult × Board :=
  (.toolOk (mark_read b messageIds).2, (mark_read b messageIds).1)

/-! ## update_task and heartbeat -/

/-- Embedding of `update_task`: a dynamic partial update.  A truthy `status`
argument is written unconditionally — no terminal-state check exists — and
`completed_at` is additionally set only when that argument equals
`"completed"`.  A truthy `result` argument is written; `updated_at` is set
whenever any field is.  The Bool is the `updated` flag (`rowcount > 0`;
without any update no statement runs and the flag is false). -/
def update_task (b : Board) (now : Int) (taskId : String)
    (status result : Option String) : Board × Bool :=
  let statusGiven := strTruthy status
  let resultGiven := strTruthy result
  let applyRow := fun (t : Task) =>
    let t1 := if statusGiven then { t with status := status.getD "" } else t
    let t2 := if statusGiven && (status == some "completed")
      then { t1 with completed_at := some now } else t1
    let t3 := if resultGiven then { t2 with result := result } else t2
    { t3 with updated_at := now }
  if statusGiven || resultGiven then
    ({ b with tasks := b.tasks.map (fun t => if t.id = taskId then applyRow t else t) },
     b.tasks.any (fun t => t.id == taskId))
  else (b, false)

/-- Embedding of `heartbeat`: every registry row of `agent_id` gets
`heartbeat = now` and `current_task_id` overwritten with the `task_id`
argument as passed (so a call without `task_id` writes NULL); the linked
task's progress is updated only when `task_id` is truthy and `progress` is
not `None`. -/
def heartbeat (b : Board) (now : Int) (agentId : String)
    (taskId : Option String) (progress : Option Int) : Board :=
  let agents := b.waiting_agents.map (fun w =>
    if w.agent_id = agentId
    then { w with heartbeat := some now, current_task_id := taskId } else w)
  let tasks :=
    match taskId, progress with
    | some tid, some p =>
      if tid = "" then b.tasks
      else b.tasks.map (fun t =>
        if t.id = tid then { t with progress := p, updated_at := now } else t)
    | _, _ => b.tasks
  { b with waiting_agents := agents, tasks := tasks }

/-! ## check_offline_agents -/

/-- The sweeper's selection: `WHERE heartbeat < now - timeout_seconds`
(a NULL heartbeat never compares true). -/
def agentStale (now timeoutSeconds : Int) (w : WaitingAgent) : Bool :=
  match w.heartbeat with
  | some h => decide (h < now - timeoutSeconds)
  | none => false

/-- One iteration of the sweeper's loop over the stale rows it fetched: mark
the agent offline, and fail its linked task when `current_task_id` is truthy
and the task is still `running` (`UPDATE tasks ... WHERE id = ? AND status =
'running'`). -/
def sweepOne (now : Int) (b : Board) (w : WaitingAgent) : Board :=
  let agents := b.waiting_agents.map (fun v =>
    if v.agent_id = w.agent_id
    then { v with is_online := false, last_disconnect := some now } else v)
  let tasks :=
    match w.current_task_id with
    | some tid =>
      if tid = "" then b.tasks
      else b.tasks.map (fun t =>
        if t.id == tid && t.status == "running" then
          { t with
            status := "failed"
            error_message := some "代理下线"
            completed_at := some now }
        else t)
    | none => b.tasks
  { b with waiting_agents := agents, tasks := tasks }

/-- Embedding of `check_offline_agents`: fetch the stale rows ordered by
heartbeat ascending, then apply the per-row updates.  The summary lists the
source also returns (offline agents, reassignable tasks) are not modelled. -/
def check_offline_agents (b : Board) (now : Int) (timeoutSeconds : Int) : Board :=
  let stale := (b.waiting_agents.filter (agentStale now timeoutSeconds)).mergeSort
    (fun x y => decide (x.heartbeat.getD 0 ≤ y.heartbeat.getD 0))
  stale.foldl (sweepOne now) b

/-! ## Concrete fixtures used by witnesses and counterexamples -/

/-- The empty store. -/
def boardEmpty : Board := { messages := [], tasks := [], waiting_agents := [] }

/-- A 30-character content, long enough to survive the short-message pass. -/
def exLongContent : List Char := "this content is long enough ok".data

/-- A task in status `running`. -/
def exTaskRunning : Task :=
  { id := "t1", title := "x", description := "", status := "running",
    assigned_to := "qwen", created_by := "iflow", priority := "normal",
    progress := 0, created_at := 0, updated_at := 0, started_at := none,
    completed_at := none, error_message := none, result := none }

/-- A task already in the terminal status `completed`. -/
def exTaskCompleted : Task :=
  { exTaskRunning with status := "completed", completed_at := some 3 }

/-- A waiting-agent row with a stale heartbeat, linked to task `t1`. -/
def exAgentStale : WaitingAgent :=
  { id := "w1", agent_id := "qwen", agent_type := "qwen", waiting_since := 0,
    capabilities := none, status := "working", current_task_id := some "t1",
    heartbeat := some 0, is_online := true, last_disconnect := none }

/-- A registry row whose `agent_id` is the empty string. -/
def exAgentEmptyId : WaitingAgent := { exAgentStale with agent_id := "" }

/-- An unread message from `alice` with timestamp 0. -/
def exMsgTs0 : Msg :=
  { id := "m1", sender := "alice", content := exLongContent, timestamp := 0,
    read := false, reply_to := none, priority := "normal" }

/-- An unread message carrying no session tag. -/
def exMsgNoTag : Msg := { exMsgTs0 with timestamp := 5 }

/-- An unread message whose stored session tag is upper-cased. -/
def exMsgUpperTag : Msg :=
  { id := "m2", sender := "alice", content := "[SESSION:ABC] hello".data,
    timestamp := 5, read := false, reply_to := none, priority := "normal" }

/-- An unread message whose stored tag is `axc` — delivered to a session
filter `a_c`, whose underscore is a `LIKE` single-character wildcard. -/
def exMsgWildTag : Msg :=
  { id := "m3", sender := "alice", content := "[session:axc] hello".data,
    timestamp := 5, read := false, reply_to := none, priority := "normal" }

/-- Duplicate pair, first row: smaller id `"aaa"`, newer timestamp 9000. -/
def exMsgDupA : Msg :=
  { id := "aaa", sender := "al", content := exLongContent, timestamp := 9000,
    read := false, reply_to := none, priority := "normal" }

/-- Duplicate pair, second row: greater id `"bbb"`, older timestamp 7000. -/
def exMsgDupB : Msg := { exMsgDupA with id := "bbb", timestamp := 7000 }

/-- A task whose id is the empty string, in status `running`. -/
def exTaskEmptyId : Task := { exTaskRunning with id := "" }

/-- A stale registry row whose `current_task_id` is the empty string. -/
def exAgentEmptyTask : WaitingAgent := { exAgentStale with current_task_id := some "" }

/-- A store with one running task and one stale waiting agent linked to it. -/
def exBoardSweep : Board :=
  { messages := [], tasks := [exTaskRunning], waiting_agents := [exAgentStale] }

/-- A store with an empty-id running task and a stale agent whose
`current_task_id` is the empty string. -/
def exBoardSweepEmpty : Board :=
  { messages := [], tasks := [exTaskEmptyId], waiting_agents := [exAgentEmptyTask] }

/-! ## Claim C9 — mark_read on the empty id list -/

/-- Claim C9, counterexample: on a store holding one unread message, a
`mark_read` call with the empty id list does return a zero count — the
dispatcher reports success with count 0 and no `-32603` error, and the store
is unchanged. -/
theorem claim9_counterexample :
    call_tool_mark_read { boardEmpty with messages := [exMsgNoTag] } []
      = (.toolOk 0, { boardEmpty with messages := [exMsgNoTag] }) := by
  decide

/-- Claim C9 (amended): for the empty list of message ids, the built
statement does contain an empty `IN ()` clause, but SQLite accepts it (a
documented extension) and it matches no row, so `mark_read` succeeds with
count 0, the dispatcher reports success rather than a `-32603` error, and no
message row is modified. -/
theorem mark_read_empty_ids_noop (b : Board) :
    markReadQueryText [] = "UPDATE messages SET read = 1 WHERE id IN ()"
    ∧ (mark_read b []).1 = b
    ∧ (mark_read b []).2 = 0
    ∧ call_tool_mark_read b [] = (.toolOk 0, b) := by
  have hmap : (mark_read b []).1 = b := by
    show ({ b with messages := b.messages.map (fun m =>
      if ([] : List String).contains m.id then { m with read := true } else m) } : Board) = b
    simp
  refine ⟨rfl, hmap, by simp [mark_read], ?_⟩
  show ((.toolOk (mark_read b []).2, (mark_read b []).1) : RpcResult × Board)
      = (.toolOk 0, b)
  rw [hmap]
  simp [mark_read]

/-! ## Claim C3 — send_message validation -/

/-- Claim C3, counterexample: with empty content and a priority outside the
allowed set, `send_message` does not fail with a `ValidationError` — it
succeeds and inserts a row anyway. -/
theorem claim3_counterexample :
    (send_message boardEmpty "id1" 100 "gen" "" "alice" "bogus" none none).2.success = true
    ∧ (send_message boardEmpty "id1" 100 "gen" "" "alice" "bogus" none none).1.messages.length = 1 :=
  ⟨rfl, rfl⟩

/-- Claim C3 (amended): `send_message` performs no validation — for every
content and priority, including empty content and priorities outside the
allowed set, the call succeeds and exactly one row is appended, carrying the
generated id, the current timestamp, the session-encoded content and
`read = false`; tasks and the waiting registry are untouched. -/
theorem send_message_always_inserts (b : Board) (genId : String) (now : Int)
    (genSession content sender priority : String)
    (replyTo sessionId : Option String) :
    (send_message b genId now genSession content sender priority replyTo sessionId).1.messages
      = b.messages ++
        [{ id := genId, sender := sender,
           content := encodeSessionContent (effectiveSessionId sessionId genSession) content.data,
           timestamp := now, read := false, reply_to := replyTo, priority := priority }]
    ∧ (send_message b genId now genSession content sender priority replyTo sessionId).1.tasks
        = b.tasks
    ∧ (send_message b genId now genSession content sender priority replyTo sessionId).1.waiting_agents
        = b.waiting_agents
    ∧ (send_message b genId now genSession content sender priority replyTo sessionId).2.success
        = true :=
  ⟨rfl, rfl, rfl, rfl⟩

/-! ## Claim C1 — the wait registration bracket -/

/-- Claim C1, counterexample: a `wait_for_message` call that does supply a
`client_id`, namely the empty string, performs no unregistration (the empty
string is falsy), so a registry row whose `agent_id` equals that client id
survives the call. -/
theorem claim1_counterexample :
    (wait_for_message boardEmpty [] [exAgentEmptyId] 0 300 none (some "")
      none none none "idle" none none).2.2 = [exAgentEmptyId]
    ∧ exAgentEmptyId.agent_id = "" :=
  ⟨rfl, rfl⟩

/-- Claim C1 (amended): after a `wait_for_message` call with a non-empty
`client_id` returns — hit, timeout, or raised — the waiting registry contains
no row whose `agent_id` equals that client id, whatever registry state the
`finally` unregistration ran against. -/
theorem wait_for_message_bracket (entry : Board) (polls : List (Option (List Msg)))
    (exitAgents : List WaitingAgent) (now timeout : Int) (lastSeen : Option Int)
    (c : String) (sessionId agentType capabilities : Option String)
    (status : String) (taskId : Option String) (progress : Option Int)
    (hc : c ≠ "") :
    ∀ w ∈ (wait_for_message entry polls exitAgents now timeout lastSeen (some c)
      sessionId agentType capabilities status taskId progress).2.2,
      w.agent_id ≠ c := by
  intro w hw
  simp only [wait_for_message, unregister_waiting, if_neg hc] at hw
  have h2 := (List.mem_filter.mp hw).2
  simpa using h2

/-- Claim C1, witness: a concrete non-empty client id, with the registry at
exit holding both its row and an unrelated one. -/
theorem wait_for_message_bracket_witness :
    ("qwen" ≠ "")
    ∧ ∀ w ∈ (wait_for_message boardEmpty [] [exAgentStale, exAgentEmptyId] 0 300
        none (some "qwen") none none none "idle" none none).2.2,
        w.agent_id ≠ "qwen" :=
  ⟨by decide,
    wait_for_message_bracket boardEmpty [] [exAgentStale, exAgentEmptyId] 0 300
      none "qwen" none none none "idle" none none (by decide)⟩

/-! ## Claim C5 — terminal statuses under update_task -/

/-- Claim C5, counterexample: a task in the terminal status `completed` is
moved back to `running` by a subsequent `update_task` — the update is neither
rejected nor a no-op. -/
theorem claim5_counterexample :
    (update_task { boardEmpty with tasks := [exTaskCompleted] } 5 "t1"
      (some "running") none).1.tasks.map Task.status = ["running"]
    ∧ exTaskCompleted.status = "completed" :=
  ⟨rfl, rfl⟩

/-- Claim C5 (amended): `update_task` enforces no terminality — any call with
a truthy status argument overwrites the status of every matching task with
that argument, regardless of the previous status (`completed` and `failed`
included). -/
theorem update_task_overwrites_status (b : Board) (now : Int) (taskId s : String)
    (result : Option String) (hs : s ≠ "") :
    ∀ t ∈ (update_task b now taskId (some s) result).1.tasks,
      t.id = taskId → t.status = s := by
  intro t ht hid
  have hgiven : strTruthy (some s) = true := by
    simp [strTruthy, hs]
  simp only [update_task, hgiven, Bool.true_or, if_pos] at ht
  rcases List.mem_map.mp ht with ⟨t0, -, rfl⟩
  by_cases h0 : t0.id = taskId
  · by_cases hcomp : (some s == some "completed") = true <;>
      by_cases hres : strTruthy result = true <;>
      simp [h0, hgiven, hcomp, hres]
  · simp only [if_neg h0] at hid ⊢
    exact absurd hid h0

/-- Claim C5, witness: the completed task of the counterexample board indeed
ends with the requested status. -/
theorem update_task_overwrites_status_witness :
    ("running" ≠ "")
    ∧ ∀ t ∈ (update_task { boardEmpty with tasks := [exTaskCompleted] } 5 "t1"
        (some "running") none).1.tasks, t.id = "t1" → t.status = "running" :=
  ⟨by decide,
    update_task_overwrites_status { boardEmpty with tasks := [exTaskCompleted] }
      5 "t1" "running" none (by decide)⟩

/-! ## Claim C6 — completed_at on terminal transitions -/

/-- Claim C6, counterexample: `update_task` to status `failed` does not set
`completed_at` — only the `completed` branch does. -/
theorem claim6_counterexample :
    (update_task { boardEmpty with tasks := [exTaskRunning] } 9 "t1"
      (some "failed") none).1.tasks.map Task.completed_at = [none]
    ∧ (update_task { boardEmpty with tasks := [exTaskRunning] } 9 "t1"
      (some "failed") none).1.tasks.map Task.status = ["failed"] :=
  ⟨rfl, rfl⟩

/-- Claim C6 (amended): on an `update_task` of an existing task,
`completed_at` is set to now exactly when the status argument is
`"completed"`; a transition to `"failed"` through `update_task` changes the
status but leaves `completed_at` as it was. -/
theorem update_task_completed_at_rule (b : Board) (now : Int) (taskId : String)
    (result : Option String) (t : Task) (ht : t ∈ b.tasks) (hid : t.id = taskId) :
    (∀ t2 ∈ (update_task b now taskId (some "completed") result).1.tasks,
        t2.id = taskId → t2.completed_at = some now)
    ∧ ∃ t2 ∈ (update_task b now taskId (some "failed") result).1.tasks,
        t2.id = taskId ∧ t2.status = "failed" ∧ t2.completed_at = t.completed_at := by
  constructor
  · intro t2 ht2 hid2
    have hgiven : strTruthy (some "completed") = true := by decide
    simp only [update_task, hgiven, Bool.true_or, if_pos] at ht2
    rcases List.mem_map.mp ht2 with ⟨t0, -, rfl⟩
    by_cases h0 : t0.id = taskId
    · by_cases hres : strTruthy result = true <;>
        simp [h0, hgiven, hres]
    · simp only [if_neg h0] at hid2 ⊢
      exact absurd hid2 h0
  · have hgiven : strTruthy (some "failed") = true := by decide
    have hcomp : (some "failed" == some "completed") = false := by decide
    by_cases hres : strTruthy result = true
    · refine ⟨{ t with status := "failed", result := result, updated_at := now },
        ?_, by simp [hid], by simp, by simp⟩
      simp only [update_task, hgiven, Bool.true_or, if_pos]
      exact List.mem_map.mpr ⟨t, ht, by simp [hid, hgiven, hcomp, hres]⟩
    · refine ⟨{ t with status := "failed", updated_at := now },
        ?_, by simp [hid], by simp, by simp⟩
      simp only [update_task, hgiven, Bool.true_or, if_pos]
      exact List.mem_map.mpr ⟨t, ht, by simp [hid, hgiven, hcomp, hres]⟩

/-- Claim C6, witness: the running fixture task, updated to `completed` and to
`failed` respectively. -/
theorem update_task_completed_at_rule_witness :
    (∀ t2 ∈ (update_task { boardEmpty with tasks := [exTaskRunning] } 9 "t1"
        (some "completed") none).1.tasks, t2.id = "t1" → t2.completed_at = some 9)
    ∧ ∃ t2 ∈ (update_task { boardEmpty with tasks := [exTaskRunning] } 9 "t1"
        (some "failed") none).1.tasks,
        t2.id = "t1" ∧ t2.status = "failed"
        ∧ t2.completed_at = exTaskRunning.completed_at :=
  update_task_completed_at_rule { boardEmpty with tasks := [exTaskRunning] } 9 "t1"
    none exTaskRunning (by decide) (by decide)

/-! ## Claim C10 — bare heartbeat overwrites current_task_id -/

/-- Claim C10: a `heartbeat` call without `task_id` writes `heartbeat = now`
and `current_task_id = NULL` into every registry row of that agent, leaves
every other column of such rows unchanged, leaves rows of other agents
verbatim, and touches neither messages nor tasks. -/
theorem heartbeat_frame_spec (b : Board) (now : Int) (agentId : String) :
    (heartbeat b now agentId none none).messages = b.messages
    ∧ (heartbeat b now agentId none none).tasks = b.tasks
    ∧ (heartbeat b now agentId none none).waiting_agents.length
        = b.waiting_agents.length
    ∧ ∀ w ∈ b.waiting_agents,
        (w.agent_id = agentId →
          { w with heartbeat := some now, current_task_id := none }
            ∈ (heartbeat b now agentId none none).waiting_agents)
        ∧ (w.agent_id ≠ agentId →
          w ∈ (heartbeat b now agentId none none).waiting_agents) := by
  refine ⟨rfl, rfl, by simp [heartbeat], ?_⟩
  intro w hw
  constructor
  · intro hid
    have := List.mem_map_of_mem
      (fun v => if v.agent_id = agentId
        then { v with heartbeat := some now, current_task_id := none } else v) hw
    simpa [heartbeat, if_pos hid] using this
  · intro hid
    have := List.mem_map_of_mem
      (fun v => if v.agent_id = agentId
        then { v with heartbeat := some now, current_task_id := none } else v) hw
    simpa [heartbeat, if_neg hid] using this

/-- Claim C10, witness: the stale fixture row, which carries a linked task id,
loses it on a bare heartbeat while its other columns survive. -/
theorem heartbeat_frame_spec_witness :
    (heartbeat { boardEmpty with waiting_agents := [exAgentStale] } 50 "qwen" none none).messages
        = boardEmpty.messages
    ∧ (heartbeat { boardEmpty with waiting_agents := [exAgentStale] } 50 "qwen" none none).tasks
        = boardEmpty.tasks
    ∧ (heartbeat { boardEmpty with waiting_agents := [exAgentStale] } 50 "qwen" none none).waiting_agents.length
        = ({ boardEmpty with waiting_agents := [exAgentStale] } : Board).waiting_agents.length
    ∧ ∀ w ∈ ({ boardEmpty with waiting_agents := [exAgentStale] } : Board).waiting_agents,
        (w.agent_id = "qwen" →
          { w with heartbeat := some 50, current_task_id := none }
            ∈ (heartbeat { boardEmpty with waiting_agents := [exAgentStale] } 50 "qwen" none none).waiting_agents)
        ∧ (w.agent_id ≠ "qwen" →
          w ∈ (heartbeat { boardEmpty with waiting_agents := [exAgentStale] } 50 "qwen" none none).waiting_agents) :=
  heartbeat_frame_spec { boardEmpty with waiting_agents := [exAgentStale] } 50 "qwen"

/-! ## Claim C4 — the session codec round trip -/

/-- Helper: the first `']'` of `l ++ ']' :: r` sits at position `l.length`
when `l` itself is bracket-free. -/
theorem idxOfBracketClose_of_not_mem (l r : List Char) (h : ']' ∉ l) :
    idxOfBracketClose (l ++ ']' :: r) = some l.length := by
  induction l with
  | nil => simp [idxOfBracketClose]
  | cons c cs ih =>
    rw [List.mem_cons, not_or] at h
    have hc : ¬(c = ']') := fun e => h.1 e.symm
    simp [idxOfBracketClose, hc, ih h.2]

/-- Claim C4, counterexample: the decode path `strip()`s the remainder, so
encoding and then decoding content with leading whitespace does not return
the original content. -/
theorem claim4_counterexample :
    decodeSessionContent (encodeSessionContent "t" " hi".data)
      = (some "t".data, "hi".data)
    ∧ "hi".data ≠ " hi".data := by
  constructor
  · decide
  · decide

/-- Claim C4 (amended): for every bracket-free session tag, decoding the
encoded content recovers the tag exactly and the content up to Python
`strip()` — leading and trailing whitespace of the original content is lost,
and contents without such whitespace round-trip identically. -/
theorem session_codec_round_trip (sid : String) (content : List Char)
    (h : ']' ∉ sid.data) :
    decodeSessionContent (encodeSessionContent sid content)
      = (some sid.data, pyStrip content) := by
  have hsplit : encodeSessionContent sid content
      = (sessionMarker ++ sid.data) ++ (']' :: ' ' :: content) := by
    simp only [encodeSessionContent, String.data_append]
    simp [sessionMarker, List.append_assoc]
  have hnotmem : ']' ∉ sessionMarker ++ sid.data := by
    intro hmem
    rcases List.mem_append.mp hmem with hm | hm
    · revert hm; decide
    · exact h hm
  have hidx : idxOfBracketClose (encodeSessionContent sid content)
      = some (sessionMarker ++ sid.data).length := by
    rw [hsplit]
    exact idxOfBracketClose_of_not_mem _ _ hnotmem
  have hisPre : sessionMarker.isPrefixOf (encodeSessionContent sid content) = true := by
    rw [List.isPrefixOf_iff_prefix, hsplit, List.append_assoc]
    exact List.prefix_append _ _
  have htake : (encodeSessionContent sid content).take
      (sessionMarker ++ sid.data).length = sessionMarker ++ sid.data := by
    rw [hsplit]; exact List.take_left _ _
  have hdrop9 : (sessionMarker ++ sid.data).drop 9 = sid.data :=
    List.drop_left' (by decide)
  have hdrop2 : (encodeSessionContent sid content).drop
      ((sessionMarker ++ sid.data).length + 2) = content := by
    have hre : encodeSessionContent sid content
        = ((sessionMarker ++ sid.data) ++ [']', ' ']) ++ content := by
      rw [hsplit]; simp
    rw [hre]
    exact List.drop_left' (by simp; omega)
  simp only [decodeSessionContent, hisPre, if_true, hidx, htake, hdrop9, hdrop2]

/-- Claim C4, witness: a concrete bracket-free tag and whitespace-free
content round-trip exactly. -/
theorem session_codec_round_trip_witness :
    decodeSessionContent (encodeSessionContent "abc" "hello".data)
      = (some "abc".data, pyStrip "hello".data) :=
  session_codec_round_trip "abc" "hello".data (by decide)

/-! ## Claim C2 — what a successful wait returns -/

/-- Helper: `minTimestampRow` never returns a row on the empty list only. -/
theorem minTimestampRow_eq_none {l : List Msg} (h : minTimestampRow l = none) :
    l = [] := by
  cases l with
  | nil => rfl
  | cons a rest =>
    rw [minTimestampRow] at h
    cases hrest : minTimestampRow rest with
    | none => rw [hrest] at h; exact absurd h (by simp)
    | some w =>
      rw [hrest] at h
      by_cases hlt : w.timestamp < a.timestamp <;> simp [hlt] at h

/-- Helper: a row returned by the `ORDER BY timestamp ASC LIMIT 1` embedding
belongs to the queried list and carries its minimal timestamp. -/
theorem minTimestampRow_spec (l : List Msg) (m : Msg)
    (h : minTimestampRow l = some m) :
    m ∈ l ∧ ∀ x ∈ l, m.timestamp ≤ x.timestamp := by
  induction l generalizing m with
  | nil => simp [minTimestampRow] at h
  | cons a rest ih =>
    rw [minTimestampRow] at h
    cases hrest : minTimestampRow rest with
    | none =>
      rw [hrest] at h
      have hnil := minTimestampRow_eq_none hrest
      subst hnil
      simp only [Option.some.injEq] at h
      subst h
      refine ⟨List.mem_cons_self _ _, ?_⟩
      intro x hx
      rcases List.mem_cons.mp hx with rfl | hx
      · exact le_refl _
      · simp at hx
    | some w =>
      rw [hrest] at h
      obtain ⟨hwmem, hwmin⟩ := ih w hrest
      have h := (show (if w.timestamp < a.timestamp then some w else some a) = some m from h)
      by_cases hlt : w.timestamp < a.timestamp
      · rw [if_pos hlt] at h
        simp only [Option.some.injEq] at h
        subst h
        refine ⟨List.mem_cons_of_mem _ hwmem, ?_⟩
        intro x hx
        rcases List.mem_cons.mp hx with rfl | hx
        · exact le_of_lt hlt
        · exact hwmin x hx
      · rw [if_neg hlt] at h
        simp only [Option.some.injEq] at h
        subst h
        refine ⟨List.mem_cons_self _ _, ?_⟩
        intro x hx
        rcases List.mem_cons.mp hx with rfl | hx
        · exact le_refl _
        · exact le_trans (not_lt.mp hlt) (hwmin x hx)

/-- Helper: a hit of the polling loop was selected by one of the observed
snapshots and is timestamp-minimal among that snapshot's candidates. -/
theorem pollLoop_hit (clientId sessionId : Option String) (lastSeen : Option Int)
    (polls : List (Option (List Msg))) (m : Msg)
    (h : pollLoop clientId sessionId lastSeen [] polls = .hit m) :
    ∃ msgs, some msgs ∈ polls
      ∧ m ∈ msgs
      ∧ waitCandidate clientId sessionId lastSeen [] m = true
      ∧ ∀ x ∈ msgs, waitCandidate clientId sessionId lastSeen [] x = true →
          m.timestamp ≤ x.timestamp := by
  induction polls with
  | nil => simp [pollLoop] at h
  | cons p rest ih =>
    cases p with
    | none => simp [pollLoop] at h
    | some msgs =>
      rw [pollLoop] at h
      cases hpoll : pollOnce clientId sessionId lastSeen [] msgs with
      | some m0 =>
        rw [hpoll] at h
        simp only [WaitOutcome.hit.injEq] at h
        subst h
        have hpoll2 : minTimestampRow
            (msgs.filter (waitCandidate clientId sessionId lastSeen [])) = some m0 := hpoll
        obtain ⟨hmem, hmin⟩ := minTimestampRow_spec _ _ hpoll2
        have hmem2 := List.mem_filter.mp hmem
        refine ⟨msgs, List.mem_cons_self _ _, hmem2.1, hmem2.2, ?_⟩
        intro x hx hcand
        exact hmin x (List.mem_filter.mpr ⟨hx, hcand⟩)
      | none =>
        rw [hpoll] at h
        obtain ⟨msgs2, hm2, hrest2⟩ := ih h
        exact ⟨msgs2, List.mem_cons_of_mem _ hm2, hrest2⟩

/-- Helper: the semantic content of a true `waitCandidate` test, with the
Python-truthiness side conditions made explicit. -/
theorem waitCandidate_props (clientId sessionId : Option String)
    (lastSeen : Option Int) (checkedIds : List String) (m : Msg)
    (h : waitCandidate clientId sessionId lastSeen checkedIds m = true) :
    m.read = false
    ∧ (∀ c, clientId = some c → c ≠ "" → m.sender ≠ c)
    ∧ (∀ v, lastSeen = some v → v ≠ 0 → v < m.timestamp)
    ∧ (∀ sid, sessionId = some sid → sid ≠ "" → likeContainsTag m.content sid = true) := by
  simp only [waitCandidate, Bool.and_eq_true] at h
  obtain ⟨⟨⟨⟨h1, h2⟩, h3⟩, h4⟩, h5⟩ := h
  refine ⟨by simpa using h1, ?_, ?_, ?_⟩
  · intro c hc hne
    subst hc
    have h2a : (if c = "" then true else !(m.sender == c)) = true := h2
    rw [if_neg hne] at h2a
    simpa using h2a
  · intro v hv hne
    subst hv
    have h4a : (if v = 0 then true else decide (v < m.timestamp)) = true := h4
    rw [if_neg hne] at h4a
    simpa using h4a
  · intro sid hs hne
    subst hs
    have h3a : (if sid = "" then true else likeContainsTag m.content sid) = true := h3
    rw [if_neg hne] at h3a
    exact h3a

/-- Claim C2, counterexample, four scenarios: a supplied-but-zero `last_seen`
places no bound on the returned timestamp; a supplied-but-empty session filter
does not make the stored content contain `"[session:]"`; the session filter
is a case-insensitive `LIKE`, so the returned row's stored content need not
contain the encoded tag literally; and `_` in a supplied tag is a `LIKE`
wildcard, so a filter `a_c` delivers a row whose stored tag is `axc` — whose
content does not contain `"[session:a_c]"` even after ASCII case folding. -/
theorem claim2_counterexample :
    ((wait_for_message boardEmpty [some [exMsgTs0]] [] 0 300 (some 0) (some "bob")
        none none none "idle" none none).1 = .hit exMsgTs0
      ∧ ¬((0 : Int) < exMsgTs0.timestamp))
    ∧ ((wait_for_message boardEmpty [some [exMsgNoTag]] [] 0 300 none (some "bob")
        (some "") none none "idle" none none).1 = .hit exMsgNoTag
      ∧ ¬("[session:]".data <:+: exMsgNoTag.content))
    ∧ ((wait_for_message boardEmpty [some [exMsgUpperTag]] [] 0 300 none (some "bob")
        (some "abc") none none "idle" none none).1 = .hit exMsgUpperTag
      ∧ ¬("[session:abc]".data <:+: exMsgUpperTag.content))
    ∧ ((wait_for_message boardEmpty [some [exMsgWildTag]] [] 0 300 none (some "bob")
        (some "a_c") none none "idle" none none).1 = .hit exMsgWildTag
      ∧ ¬("[session:a_c]".data <:+: exMsgWildTag.content)
      ∧ ¬(("[session:a_c]".data.map lowerAscii) <:+:
            (exMsgWildTag.content.map lowerAscii))) := by
  refine ⟨⟨?_, ?_⟩, ⟨?_, ?_⟩, ⟨?_, ?_⟩, ⟨?_, ?_, ?_⟩⟩ <;> decide

/-- Claim C2 (amended): a row returned by a successful `wait_for_message` is
unread; its sender differs from a truthy `client_id`; its timestamp exceeds a
supplied non-zero `last_seen`; its stored content matches a supplied non-empty
session filter's `LIKE` pattern `%[session:<tag>]%` — a match that folds
ASCII case and in which `%` and `_` of the tag act as wildcards, so literal
containment of the encoded tag holds only for metacharacter-free tags, and
then only up to case; zero and empty optional arguments behave as absent; and
the row is timestamp-minimal among that poll's candidates. -/
theorem wait_for_message_candidate_sound (entry : Board)
    (polls : List (Option (List Msg))) (exitAgents : List WaitingAgent)
    (now timeout : Int) (lastSeen : Option Int)
    (clientId sessionId agentType capabilities : Option String) (status : String)
    (taskId : Option String) (progress : Option Int) (m : Msg)
    (h : (wait_for_message entry polls exitAgents now timeout lastSeen clientId
      sessionId agentType capabilities status taskId progress).1 = .hit m) :
    m.read = false
    ∧ (∀ c, clientId = some c → c ≠ "" → m.sender ≠ c)
    ∧ (∀ v, lastSeen = some v → v ≠ 0 → v < m.timestamp)
    ∧ (∀ sid, sessionId = some sid → sid ≠ "" → likeContainsTag m.content sid = true)
    ∧ ∃ msgs, some msgs ∈ polls ∧ m ∈ msgs
        ∧ ∀ x ∈ msgs, waitCandidate clientId sessionId lastSeen [] x = true →
            m.timestamp ≤ x.timestamp := by
  have h1 : pollLoop clientId sessionId lastSeen [] polls = .hit m := h
  obtain ⟨msgs, hpm, hmem, hcand, hmin⟩ := pollLoop_hit _ _ _ _ _ h1
  obtain ⟨p1, p2, p3, p4⟩ := waitCandidate_props _ _ _ _ _ hcand
  exact ⟨p1, p2, p3, p4, msgs, hpm, hmem, hmin⟩

/-- Claim C2, witness: a concrete successful wait, with every side condition
discharged at the tag-free message fixture. -/
theorem wait_for_message_candidate_sound_witness :
    exMsgNoTag.read = false
    ∧ (∀ c, (some "bob" : Option String) = some c → c ≠ "" → exMsgNoTag.sender ≠ c)
    ∧ (∀ v, (none : Option Int) = some v → v ≠ 0 → v < exMsgNoTag.timestamp)
    ∧ (∀ sid, (none : Option String) = some sid → sid ≠ "" →
        likeContainsTag exMsgNoTag.content sid = true)
    ∧ ∃ msgs, some msgs ∈ [some [exMsgNoTag]] ∧ exMsgNoTag ∈ msgs
        ∧ ∀ x ∈ msgs, waitCandidate (some "bob") none none [] x = true →
            exMsgNoTag.timestamp ≤ x.timestamp :=
  wait_for_message_candidate_sound boardEmpty [some [exMsgNoTag]] [] 0 300 none
    (some "bob") none none none "idle" none none exMsgNoTag (by decide)

/-! ## Claim C7 — which duplicate survives the retention pruning -/

/-- Helper: the lexicographic comparison is reflexive. -/
theorem charListLe_refl (x : List Char) : charListLe x x = true := by
  induction x with
  | nil => rfl
  | cons c cs ih =>
    show (if c < c then true else if c < c then false else charListLe cs cs) = true
    rw [if_neg (lt_irrefl c), if_neg (lt_irrefl c)]
    exact ih

/-- Helper: the lexicographic comparison is total. -/
theorem charListLe_total (x y : List Char) :
    charListLe x y = true ∨ charListLe y x = true := by
  induction x generalizing y with
  | nil => exact Or.inl rfl
  | cons c cs ih =>
    cases y with
    | nil => exact Or.inr rfl
    | cons d ds =>
      rcases lt_trichotomy c d with hlt | heq | hgt
      · left
        show (if c < d then true else if d < c then false else charListLe cs ds) = true
        rw [if_pos hlt]
      · subst heq
        rcases ih ds with h | h
        · left
          show (if c < c then true else if c < c then false else charListLe cs ds) = true
          rw [if_neg (lt_irrefl c), if_neg (lt_irrefl c)]
          exact h
        · right
          show (if c < c then true else if c < c then false else charListLe ds cs) = true
          rw [if_neg (lt_irrefl c), if_neg (lt_irrefl c)]
          exact h
      · right
        show (if d < c then true else if c < d then false else charListLe ds cs) = true
        rw [if_pos hgt]

/-- Helper: the lexicographic comparison is transitive. -/
theorem charListLe_trans {x y z : List Char} (h1 : charListLe x y = true)
    (h2 : charListLe y z = true) : charListLe x z = true := by
  induction x generalizing y z with
  | nil => rfl
  | cons c cs ih =>
    cases y with
    | nil => exact absurd h1 (by simp [charListLe])
    | cons d ds =>
      cases z with
      | nil => exact absurd h2 (by simp [charListLe])
      | cons e es =>
        have h1a : (if c < d then true else if d < c then false else charListLe cs ds) = true := h1
        have h2a : (if d < e then true else if e < d then false else charListLe ds es) = true := h2
        show (if c < e then true else if e < c then false else charListLe cs es) = true
        rcases lt_trichotomy c d with hcd | hcd | hcd
        · rcases lt_trichotomy d e with hde | hde | hde
          · rw [if_pos (lt_trans hcd hde)]
          · subst hde
            rw [if_pos hcd]
          · rw [if_neg (lt_asymm hde), if_pos hde] at h2a
            exact absurd h2a (by simp)
        · subst hcd
          rw [if_neg (lt_irrefl c), if_neg (lt_irrefl c)] at h1a
          rcases lt_trichotomy c e with hce | hce | hce
          · rw [if_pos hce]
          · subst hce
            rw [if_neg (lt_irrefl c), if_neg (lt_irrefl c)] at h2a ⊢
            exact ih h1a h2a
          · rw [if_neg (lt_asymm hce), if_pos hce] at h2a
            exact absurd h2a (by simp)
        · rw [if_neg (lt_asymm hcd), if_pos hcd] at h1a
          exact absurd h1a (by simp)

/-- Helper: the lexicographic comparison is antisymmetric. -/
theorem charListLe_antisymm {x y : List Char} (h1 : charListLe x y = true)
    (h2 : charListLe y x = true) : x = y := by
  induction x generalizing y with
  | nil =>
    cases y with
    | nil => rfl
    | cons d ds => exact absurd h2 (by simp [charListLe])
  | cons c cs ih =>
    cases y with
    | nil => exact absurd h1 (by simp [charListLe])
    | cons d ds =>
      have h1a : (if c < d then true else if d < c then false else charListLe cs ds) = true := h1
      have h2a : (if d < c then true else if c < d then false else charListLe ds cs) = true := h2
      rcases lt_trichotomy c d with hlt | heq | hgt
      · rw [if_neg (lt_asymm hlt), if_pos hlt] at h2a
        exact absurd h2a (by simp)
      · subst heq
        rw [if_neg (lt_irrefl c), if_neg (lt_irrefl c)] at h1a h2a
        rw [ih h1a h2a]
      · rw [if_neg (lt_asymm hgt), if_pos hgt] at h1a
        exact absurd h1a (by simp)

/-- Helper: `sqlTextLe` is antisymmetric on strings. -/
theorem sqlTextLe_antisymm {x y : String} (h1 : sqlTextLe x y = true)
    (h2 : sqlTextLe y x = true) : x = y := by
  cases x with
  | mk dx =>
    cases y with
    | mk dy =>
      have : dx = dy := charListLe_antisymm h1 h2
      rw [this]

/-- Helper: a `MAX` result of the empty group only. -/
theorem sqlMaxText_eq_none {l : List String} (h : sqlMaxText l = none) :
    l = [] := by
  cases l with
  | nil => rfl
  | cons x xs =>
    rw [sqlMaxText] at h
    cases hxs : sqlMaxText xs with
    | none => rw [hxs] at h; exact absurd h (by simp)
    | some z =>
      rw [hxs] at h
      by_cases hle : sqlTextLe x z = true <;> simp [hle] at h

/-- Helper: a `MAX` result is an element of its group. -/
theorem sqlMaxText_mem {l : List String} {y : String} (h : sqlMaxText l = some y) :
    y ∈ l := by
  induction l generalizing y with
  | nil => simp [sqlMaxText] at h
  | cons x xs ih =>
    rw [sqlMaxText] at h
    cases hxs : sqlMaxText xs with
    | none =>
      rw [hxs] at h
      simp only [Option.some.injEq] at h
      subst h
      exact List.mem_cons_self _ _
    | some z =>
      rw [hxs] at h
      simp only [Option.some.injEq] at h
      subst h
      by_cases hle : sqlTextLe x z = true
      · simpa [hle] using List.mem_cons_of_mem x (ih hxs)
      · simp [hle]

/-- Helper: a `MAX` result bounds every element of its group in the `TEXT`
order. -/
theorem sqlMaxText_le {l : List String} {x y : String} (hx : x ∈ l)
    (h : sqlMaxText l = some y) : sqlTextLe x y = true := by
  induction l generalizing y with
  | nil => simp at hx
  | cons a xs ih =>
    rw [sqlMaxText] at h
    cases hxs : sqlMaxText xs with
    | none =>
      rw [hxs] at h
      simp only [Option.some.injEq] at h
      subst h
      rcases List.mem_cons.mp hx with rfl | hx2
      · exact charListLe_refl _
      · rw [sqlMaxText_eq_none hxs] at hx2
        simp at hx2
    | some z =>
      rw [hxs] at h
      simp only [Option.some.injEq] at h
      subst h
      rcases List.mem_cons.mp hx with rfl | hx2
      · by_cases hle : sqlTextLe x z = true
        · rw [if_pos hle]
          exact hle
        · rw [if_neg hle]
          exact charListLe_refl _
      · have hxz := ih hx2 hxs
        by_cases hle : sqlTextLe a z = true
        · rw [if_pos hle]
          exact hxz
        · rw [if_neg hle]
          rcases charListLe_total a.data z.data with htot | htot
          · exact absurd htot hle
          · exact charListLe_trans hxz htot

/-- Helper: `MAX` of a non-empty group exists. -/
theorem sqlMaxText_ne_none {l : List String} (h : l ≠ []) :
    ∃ y, sqlMaxText l = some y := by
  cases l with
  | nil => exact absurd rfl h
  | cons x xs =>
    rw [sqlMaxText]
    cases sqlMaxText xs <;> simp

/-- Helper: under unique ids, a duplicate-pass survivor dominates, by id,
every row of its own `(content, sender)` group. -/
theorem dupSurvivors_sound {l : List Msg} (hnd : (l.map Msg.id).Nodup)
    {m : Msg} (hm : m ∈ dupSurvivors l) :
    m ∈ l ∧ ∀ w ∈ l, w.content = m.content → w.sender = m.sender → sqlTextLe w.id m.id = true := by
  obtain ⟨hml, hany⟩ := List.mem_filter.mp hm
  refine ⟨hml, ?_⟩
  rw [List.any_eq_true] at hany
  obtain ⟨w0, hw0, hbeq⟩ := hany
  have hmax : pairMaxId l w0.content w0.sender = some m.id := by
    simpa using hbeq
  have hmem_id : m.id ∈ (l.filter
      (fun x => x.content == w0.content && x.sender == w0.sender)).map Msg.id :=
    sqlMaxText_mem hmax
  rw [List.mem_map] at hmem_id
  obtain ⟨r, hr, hrid⟩ := hmem_id
  have hrl : r ∈ l := (List.mem_filter.mp hr).1
  have hreq : r = m := List.inj_on_of_nodup_map hnd hrl hml hrid
  have hpair := (List.mem_filter.mp hr).2
  rw [Bool.and_eq_true] at hpair
  have hcm : m.content = w0.content := by
    rw [← hreq]; simpa using hpair.1
  have hsm : m.sender = w0.sender := by
    rw [← hreq]; simpa using hpair.2
  intro w hw hwc hws
  have hwgroup : w ∈ l.filter
      (fun x => x.content == w0.content && x.sender == w0.sender) := by
    refine List.mem_filter.mpr ⟨hw, ?_⟩
    simp [hwc, hcm, hws, hsm]
  exact sqlMaxText_le (List.mem_map_of_mem Msg.id hwgroup) hmax

/-- Helper: every `(content, sender)` pair present before the duplicate pass
still has a representative afterwards. -/
theorem dupSurvivors_exists {l : List Msg} {w : Msg} (hw : w ∈ l) :
    ∃ m ∈ dupSurvivors l, m.content = w.content ∧ m.sender = w.sender := by
  have hwgroup : w ∈ l.filter
      (fun x => x.content == w.content && x.sender == w.sender) :=
    List.mem_filter.mpr ⟨hw, by simp⟩
  obtain ⟨M, hM⟩ := sqlMaxText_ne_none
    (l := (l.filter (fun x => x.content == w.content && x.sender == w.sender)).map Msg.id)
    (by
      simp only [ne_eq, List.map_eq_nil_iff]
      exact List.ne_nil_of_mem hwgroup)
  obtain ⟨r, hr, hrid⟩ := List.mem_map.mp (sqlMaxText_mem hM)
  have hrl : r ∈ l := (List.mem_filter.mp hr).1
  have hpair := (List.mem_filter.mp hr).2
  rw [Bool.and_eq_true] at hpair
  have hc : r.content = w.content := by simpa using hpair.1
  have hs : r.sender = w.sender := by simpa using hpair.2
  refine ⟨r, ?_, hc, hs⟩
  refine List.mem_filter.mpr ⟨hrl, ?_⟩
  rw [List.any_eq_true]
  refine ⟨r, hrl, ?_⟩
  have hmax : pairMaxId l r.content r.sender = some M := by
    rw [pairMaxId, hc, hs]
    exact hM
  rw [hmax, hrid]
  simp

/-- Claim C7, counterexample: two in-window duplicates where the greater id
carries the older timestamp — the pruning keeps `MAX(id)`, so the surviving
row is not the most recent one. -/
theorem claim7_counterexample :
    (cleanup_messages { boardEmpty with messages := [exMsgDupA, exMsgDupB] }
      10000).1.messages = [exMsgDupB]
    ∧ exMsgDupB.timestamp < exMsgDupA.timestamp := by
  constructor
  · decide
  · decide

/-- Claim C7 (amended): after the pruning that runs before every
`read_messages`, each `(content, sender)` pair that survives the short-message
pass keeps exactly one representative of the duplicate pass — the row with the
greatest `id` (SQLite `MAX(id)`), which need not be the most recent — and the
final table is that survivor set filtered by the one-hour window. -/
theorem cleanup_messages_dup_spec (b : Board) (now : Int) (kept : List Msg)
    (hkept : kept = b.messages.filter (fun m => !(decide (m.content.length < 20))))
    (hnd : (b.messages.map Msg.id).Nodup) :
    ((cleanup_messages b now).1.messages
        = (dupSurvivors kept).filter (fun m => !(decide (m.timestamp < now - 3600))))
    ∧ (∀ m ∈ dupSurvivors kept, m ∈ kept ∧ ∀ w ∈ kept,
        w.content = m.content → w.sender = m.sender → sqlTextLe w.id m.id = true)
    ∧ (∀ w ∈ kept, ∃ m ∈ dupSurvivors kept,
        m.content = w.content ∧ m.sender = w.sender)
    ∧ (∀ m1 ∈ dupSurvivors kept, ∀ m2 ∈ dupSurvivors kept,
        m1.content = m2.content → m1.sender = m2.sender → m1 = m2) := by
  subst hkept
  have hndk : ((b.messages.filter
      (fun m => !(decide (m.content.length < 20)))).map Msg.id).Nodup :=
    hnd.sublist ((List.filter_sublist b.messages).map Msg.id)
  refine ⟨rfl, ?_, ?_, ?_⟩
  · intro m hm
    exact dupSurvivors_sound hndk hm
  · intro w hw
    exact dupSurvivors_exists hw
  · intro m1 h1 m2 h2 hc hs
    obtain ⟨hm1l, hmax1⟩ := dupSurvivors_sound hndk h1
    obtain ⟨hm2l, hmax2⟩ := dupSurvivors_sound hndk h2
    have h12 : sqlTextLe m1.id m2.id = true := hmax2 m1 hm1l hc hs
    have h21 : sqlTextLe m2.id m1.id = true := hmax1 m2 hm2l hc.symm hs.symm
    exact List.inj_on_of_nodup_map hndk hm1l hm2l (sqlTextLe_antisymm h12 h21)

/-- Claim C7, witness: the duplicate-pair fixture, with unique ids, keeps
exactly the greater-id row. -/
theorem cleanup_messages_dup_spec_witness :
    ((cleanup_messages { boardEmpty with messages := [exMsgDupA, exMsgDupB] }
        10000).1.messages
      = (dupSurvivors [exMsgDupA, exMsgDupB]).filter
          (fun m => !(decide (m.timestamp < 10000 - 3600))))
    ∧ (∀ m ∈ dupSurvivors [exMsgDupA, exMsgDupB], m ∈ [exMsgDupA, exMsgDupB]
        ∧ ∀ w ∈ [exMsgDupA, exMsgDupB],
            w.content = m.content → w.sender = m.sender → sqlTextLe w.id m.id = true)
    ∧ (∀ w ∈ [exMsgDupA, exMsgDupB], ∃ m ∈ dupSurvivors [exMsgDupA, exMsgDupB],
        m.content = w.content ∧ m.sender = w.sender)
    ∧ (∀ m1 ∈ dupSurvivors [exMsgDupA, exMsgDupB],
        ∀ m2 ∈ dupSurvivors [exMsgDupA, exMsgDupB],
        m1.content = m2.content → m1.sender = m2.sender → m1 = m2) :=
  cleanup_messages_dup_spec { boardEmpty with messages := [exMsgDupA, exMsgDupB] }
    10000 [exMsgDupA, exMsgDupB] (by decide) (by decide)

/-! ## Claim C8 — the liveness sweeper -/

/-- Helper: once every registry row of an agent is offline with
`last_disconnect = now`, further sweep iterations keep it so. -/
theorem sweepFold_agents_preserved (now : Int) (a : String) (L : List WaitingAgent)
    (b : Board)
    (hP : ∀ v ∈ b.waiting_agents, v.agent_id = a →
      v.is_online = false ∧ v.last_disconnect = some now) :
    ∀ v ∈ (L.foldl (sweepOne now) b).waiting_agents, v.agent_id = a →
      v.is_online = false ∧ v.last_disconnect = some now := by
  induction L generalizing b with
  | nil => exact hP
  | cons w L ih =>
    refine ih (sweepOne now b w) ?_
    intro v hv hva
    have hv2 : v ∈ b.waiting_agents.map (fun v =>
        if v.agent_id = w.agent_id
        then { v with is_online := false, last_disconnect := some now } else v) := hv
    obtain ⟨v0, hv0, hveq⟩ := List.mem_map.mp hv2
    by_cases hcond : v0.agent_id = w.agent_id
    · rw [← hveq, if_pos hcond]
      exact ⟨rfl, rfl⟩
    · rw [← hveq, if_neg hcond]
      rw [← hveq, if_neg hcond] at hva
      exact hP v0 hv0 hva

/-- Helper: folding the sweep step over a list that mentions an agent leaves
every registry row of that agent offline with `last_disconnect = now`. -/
theorem sweepFold_agents_offline (now : Int) (L : List WaitingAgent) (b : Board)
    (a : String) (hmem : ∃ w ∈ L, w.agent_id = a) :
    ∀ v ∈ (L.foldl (sweepOne now) b).waiting_agents, v.agent_id = a →
      v.is_online = false ∧ v.last_disconnect = some now := by
  induction L generalizing b with
  | nil =>
    obtain ⟨w, hw, -⟩ := hmem
    simp at hw
  | cons w L ih =>
    obtain ⟨w0, hw0, hw0a⟩ := hmem
    rcases List.mem_cons.mp hw0 with rfl | hw0L
    · refine sweepFold_agents_preserved now a L (sweepOne now b w0) ?_
      intro v hv hva
      have hv2 : v ∈ b.waiting_agents.map (fun v =>
          if v.agent_id = w0.agent_id
          then { v with is_online := false, last_disconnect := some now } else v) := hv
      obtain ⟨v0, hv0, hveq⟩ := List.mem_map.mp hv2
      by_cases hcond : v0.agent_id = w0.agent_id
      · rw [← hveq, if_pos hcond]
        exact ⟨rfl, rfl⟩
      · rw [← hveq, if_neg hcond] at hva
        exact absurd (hva.trans hw0a.symm) hcond
    · exact ih (sweepOne now b w) ⟨w0, hw0L, hw0a⟩

/-- Helper: a sweep step keeps every row of a given task id in the
failed-as-offline shape. -/
theorem sweepOne_tasks_kept (now : Int) (tid : String) (b : Board) (w : WaitingAgent)
    (hQ : ∀ t ∈ b.tasks, t.id = tid → t.status = "failed"
      ∧ t.error_message = some "代理下线" ∧ t.completed_at = some now) :
    ∀ t ∈ (sweepOne now b w).tasks, t.id = tid → t.status = "failed"
      ∧ t.error_message = some "代理下线" ∧ t.completed_at = some now := by
  intro t ht htid
  simp only [sweepOne] at ht
  cases hct : w.current_task_id with
  | none =>
    simp only [hct] at ht
    exact hQ t ht htid
  | some tid2 =>
    simp only [hct] at ht
    by_cases hemp : tid2 = ""
    · rw [if_pos hemp] at ht
      exact hQ t ht htid
    · rw [if_neg hemp] at ht
      obtain ⟨t0, ht0, hteq⟩ := List.mem_map.mp ht
      by_cases hcond : (t0.id == tid2 && t0.status == "running") = true
      · rw [if_pos hcond] at hteq
        rw [← hteq]
        exact ⟨rfl, rfl, rfl⟩
      · rw [if_neg hcond] at hteq
        rw [← hteq] at htid ⊢
        exact hQ t0 ht0 htid

/-- Helper: a sweep step preserves the invariant that every row of a given
task id is either still `running` or already failed as offline. -/
theorem sweepOne_tasks_inv (now : Int) (tid : String) (b : Board) (w : WaitingAgent)
    (hR : ∀ t ∈ b.tasks, t.id = tid → t.status = "running"
      ∨ (t.status = "failed" ∧ t.error_message = some "代理下线"
          ∧ t.completed_at = some now)) :
    ∀ t ∈ (sweepOne now b w).tasks, t.id = tid → t.status = "running"
      ∨ (t.status = "failed" ∧ t.error_message = some "代理下线"
          ∧ t.completed_at = some now) := by
  intro t ht htid
  simp only [sweepOne] at ht
  cases hct : w.current_task_id with
  | none =>
    simp only [hct] at ht
    exact hR t ht htid
  | some tid2 =>
    simp only [hct] at ht
    by_cases hemp : tid2 = ""
    · rw [if_pos hemp] at ht
      exact hR t ht htid
    · rw [if_neg hemp] at ht
      obtain ⟨t0, ht0, hteq⟩ := List.mem_map.mp ht
      by_cases hcond : (t0.id == tid2 && t0.status == "running") = true
      · rw [if_pos hcond] at hteq
        rw [← hteq]
        exact Or.inr ⟨rfl, rfl, rfl⟩
      · rw [if_neg hcond] at hteq
        rw [← hteq] at htid ⊢
        exact hR t0 ht0 htid

/-- Helper: processing a stale agent whose `current_task_id` is the non-empty
`tid` fails every still-running row of that id. -/
theorem sweepOne_tasks_fail (now : Int) (tid : String) (b : Board) (w : WaitingAgent)
    (hct : w.current_task_id = some tid) (htne : tid ≠ "")
    (hR : ∀ t ∈ b.tasks, t.id = tid → t.status = "running"
      ∨ (t.status = "failed" ∧ t.error_message = some "代理下线"
          ∧ t.completed_at = some now)) :
    ∀ t ∈ (sweepOne now b w).tasks, t.id = tid → t.status = "failed"
      ∧ t.error_message = some "代理下线" ∧ t.completed_at = some now := by
  intro t ht htid
  simp only [sweepOne, hct] at ht
  rw [if_neg htne] at ht
  obtain ⟨t0, ht0, hteq⟩ := List.mem_map.mp ht
  by_cases hcond : (t0.id == tid && t0.status == "running") = true
  · rw [if_pos hcond] at hteq
    rw [← hteq]
    exact ⟨rfl, rfl, rfl⟩
  · rw [if_neg hcond] at hteq
    rw [← hteq] at htid ⊢
    rcases hR t0 ht0 htid with hrun | hdone
    · exact absurd (by simp [htid, hrun]) hcond
    · exact hdone

/-- Helper: the failed-as-offline shape of a task id's rows survives folding
the sweep step over any agent list. -/
theorem sweepFold_tasks_kept (now : Int) (tid : String) (L : List WaitingAgent)
    (b : Board)
    (hQ : ∀ t ∈ b.tasks, t.id = tid → t.status = "failed"
      ∧ t.error_message = some "代理下线" ∧ t.completed_at = some now) :
    ∀ t ∈ (L.foldl (sweepOne now) b).tasks, t.id = tid → t.status = "failed"
      ∧ t.error_message = some "代理下线" ∧ t.completed_at = some now := by
  induction L generalizing b with
  | nil => exact hQ
  | cons w L ih => exact ih (sweepOne now b w) (sweepOne_tasks_kept now tid b w hQ)

/-- Helper: folding the sweep step over a list containing an agent linked to
a non-empty task id fails every initially-running row of that id. -/
theorem sweepFold_tasks_failed (now : Int) (tid : String) (L : List WaitingAgent)
    (b : Board) (hmem : ∃ w ∈ L, w.current_task_id = some tid) (htne : tid ≠ "")
    (hR : ∀ t ∈ b.tasks, t.id = tid → t.status = "running"
      ∨ (t.status = "failed" ∧ t.error_message = some "代理下线"
          ∧ t.completed_at = some now)) :
    ∀ t ∈ (L.foldl (sweepOne now) b).tasks, t.id = tid → t.status = "failed"
      ∧ t.error_message = some "代理下线" ∧ t.completed_at = some now := by
  induction L generalizing b with
  | nil =>
    obtain ⟨w, hw, -⟩ := hmem
    simp at hw
  | cons w L ih =>
    obtain ⟨w0, hw0, hw0t⟩ := hmem
    rcases List.mem_cons.mp hw0 with rfl | hw0L
    · exact sweepFold_tasks_kept now tid L (sweepOne now b w0)
        (sweepOne_tasks_fail now tid b w0 hw0t htne hR)
    · exact ih (sweepOne now b w) ⟨w0, hw0L, hw0t⟩
        (sweepOne_tasks_inv now tid b w hR)

/-- Claim C8, counterexample, two parts: the failed task's `error_message` is
the literal `"代理下线"`, not `"agent offline"`; and a stale agent whose
`current_task_id` is the empty string leaves its running task of that id
untouched (the empty string is falsy). -/
theorem claim8_counterexample :
    ((check_offline_agents exBoardSweep 1000 120).tasks.map Task.error_message
        = [some "代理下线"]
      ∧ (some "代理下线" : Option String) ≠ some "agent offline")
    ∧ (check_offline_agents exBoardSweepEmpty 1000 120).tasks.map Task.status
        = ["running"] := by
  have hf1 : List.filter (agentStale 1000 120) [exAgentStale] = [exAgentStale] := by
    decide
  have hf2 : List.filter (agentStale 1000 120) [exAgentEmptyTask]
      = [exAgentEmptyTask] := by
    decide
  refine ⟨⟨?_, by decide⟩, ?_⟩
  · simp only [check_offline_agents, exBoardSweep, hf1, List.mergeSort_singleton]
    decide
  · simp only [check_offline_agents, exBoardSweepEmpty, hf2, List.mergeSort_singleton]
    decide

/-- Claim C8 (amended): a `check_offline_agents` call marks every registry row
of an agent with a stale heartbeat offline with `last_disconnect = now`; and
when such an agent's `current_task_id` is set and non-empty and names a
running task (ids unique), that task is afterwards `failed` with
`error_message = "代理下线"` (the source's literal for "agent offline") and
`completed_at = now`. -/
theorem check_offline_agents_spec (b : Board) (now timeoutSeconds hbt : Int)
    (w : WaitingAgent) (hw : w ∈ b.waiting_agents) (hhb : w.heartbeat = some hbt)
    (hstale : hbt < now - timeoutSeconds) :
    (∀ v ∈ (check_offline_agents b now timeoutSeconds).waiting_agents,
        v.agent_id = w.agent_id → v.is_online = false ∧ v.last_disconnect = some now)
    ∧ ∀ tid, w.current_task_id = some tid → tid ≠ "" →
        (b.tasks.map Task.id).Nodup →
        ∀ t ∈ b.tasks, t.id = tid → t.status = "running" →
        ∀ t2 ∈ (check_offline_agents b now timeoutSeconds).tasks, t2.id = tid →
          t2.status = "failed" ∧ t2.error_message = some "代理下线"
          ∧ t2.completed_at = some now := by
  have hstaleB : agentStale now timeoutSeconds w = true := by
    simp [agentStale, hhb, hstale]
  have hwsorted : w ∈ (b.waiting_agents.filter
      (agentStale now timeoutSeconds)).mergeSort
      (fun x y => decide (x.heartbeat.getD 0 ≤ y.heartbeat.getD 0)) := by
    rw [List.mem_mergeSort]
    exact List.mem_filter.mpr ⟨hw, hstaleB⟩
  constructor
  · exact sweepFold_agents_offline now _ b w.agent_id ⟨w, hwsorted, rfl⟩
  · intro tid hct htne hnd t ht htid hrun
    have hR : ∀ t2 ∈ b.tasks, t2.id = tid → t2.status = "running"
        ∨ (t2.status = "failed" ∧ t2.error_message = some "代理下线"
            ∧ t2.completed_at = some now) := by
      intro t2 ht2 htid2
      left
      have ht2t : t2 = t := List.inj_on_of_nodup_map hnd ht2 ht (htid2.trans htid.symm)
      rw [ht2t]
      exact hrun
    exact sweepFold_tasks_failed now tid _ b ⟨w, hwsorted, hct⟩ htne hR

/-- Claim C8, witness: the stale fixture agent with its running linked task,
every hypothesis discharged concretely. -/
theorem check_offline_agents_spec_witness :
    (∀ v ∈ (check_offline_agents exBoardSweep 1000 120).waiting_agents,
        v.agent_id = exAgentStale.agent_id →
          v.is_online = false ∧ v.last_disconnect = some 1000)
    ∧ ∀ tid, exAgentStale.current_task_id = some tid → tid ≠ "" →
        (exBoardSweep.tasks.map Task.id).Nodup →
        ∀ t ∈ exBoardSweep.tasks, t.id = tid → t.status = "running" →
        ∀ t2 ∈ (check_offline_agents exBoardSweep 1000 120).tasks, t2.id = tid →
          t2.status = "failed" ∧ t2.error_message = some "代理下线"
          ∧ t2.completed_at = some 1000 :=
  check_offline_agents_spec exBoardSweep 1000 120 0 exAgentStale
    (by decide) (by decide) (by decide)

end MessageBoard
